import Mathlib

/-!
Verification of "The Stranger's Ledger" (src/app.py), a JSON-backed personal
reading tracker.  The Python source is shallowly embedded: pure helpers become
Lean functions, the Streamlit write handlers become explicit state-passing
functions over a `Store`, Python `int` is `Int`, and a Python exception is an
`Option.none` result.  Field names follow the source.
-/

namespace StrangersLedger

/-- Loosely typed Python scalar, used for the `progress` field of a raw record
(`_ensure_defaults` receives a `Dict[str, Any]`, so a persisted record may hold
a non-integer there). -/
inductive PyVal where
  | none
  | int (n : Int)
  | str (s : String)
  | bool (b : Bool)
deriving DecidableEq, Repr

/-- Python truthiness for the values of `PyVal`. -/
def PyVal.truthy : PyVal → Bool
  | .none => false
  | .int n => n != 0
  | .str s => s != ""
  | .bool b => b

/-- Decimal value of a digit run (most significant first). -/
def digitsVal (l : List Char) : Nat :=
  l.foldl (fun acc c => acc * 10 + (c.toNat - 48)) 0

def isDigitChar (c : Char) : Bool := 48 ≤ c.toNat && c.toNat ≤ 57

/-- Python `int(str)` on an already whitespace-stripped char list: optional
sign followed by at least one digit; anything else raises. -/
def parseIntChars : List Char → Option Int
  | [] => Option.none
  | c :: rest =>
    if c = '-' then
      if rest ≠ [] ∧ rest.all isDigitChar then some (-(digitsVal rest : Int)) else Option.none
    else if c = '+' then
      if rest ≠ [] ∧ rest.all isDigitChar then some (digitsVal rest : Int) else Option.none
    else
      if (c :: rest).all isDigitChar then some (digitsVal (c :: rest) : Int) else Option.none

/-- Python `int(..)` conversion; `Option.none` models the raised
`TypeError`/`ValueError` on `None` and non-numeric strings.  `int(str)`
ignores surrounding whitespace. -/
def PyVal.toInt : PyVal → Option Int
  | .none => Option.none
  | .int n => some n
  | .str s =>
    parseIntChars (((s.data.dropWhile Char.isWhitespace).reverse.dropWhile Char.isWhitespace).reverse)
  | .bool b => some (if b then 1 else 0)

/-- Python `needle in haystack` on strings: contiguous substring test. -/
def isSubChars (needle : List Char) : List Char → Bool
  | [] => needle.isEmpty
  | c :: rest => needle.isPrefixOf (c :: rest) || isSubChars needle rest

/-- Lexicographic code-point comparison of char lists (`≤`), as Python compares
strings. -/
def charListLe : List Char → List Char → Bool
  | [], _ => true
  | _ :: _, [] => false
  | a :: s, b :: t =>
    if a.toNat < b.toNat then true
    else if b.toNat < a.toNat then false
    else charListLe s t

/-- Python string `≤` (code-point lexicographic). -/
def strLe (s t : String) : Prop := charListLe s.data t.data = true

instance : DecidableRel strLe := fun s t =>
  inferInstanceAs (Decidable (charListLe s.data t.data = true))

/-- Drop trailing whitespace. -/
def stripEnd (l : List Char) : List Char :=
  (l.reverse.dropWhile Char.isWhitespace).reverse

/-- `List.dropWhile` from both ends is Python `str.strip()` on the char list. -/
def stripList (l : List Char) : List Char :=
  stripEnd (l.dropWhile Char.isWhitespace)

/-- Python `str.strip()`. -/
def pyStrip (s : String) : String := String.mk (stripList s.data)

/-- Python `str.lower()` (ASCII case folding, which covers the data here). -/
def pyLower (s : String) : String := String.mk (s.data.map Char.toLower)

/-- A fully normalized book record, as produced by `_ensure_defaults`
(src/app.py lines 58-78) and stored in `books_db.json`. -/
structure Book where
  id : String
  title : String
  author : String
  status : String
  progress : Int
  favorite : Bool
  tags : List String
  cover_path : Option String
  rating : Option Int
  notes : String
  created_at : String
  updated_at : String
deriving DecidableEq, Repr

/-- A raw record (Python dict): `Option.none` on a field models an absent key.
`progress` may hold an arbitrary Python scalar. -/
structure RawBook where
  id : Option String := Option.none
  title : Option String := Option.none
  author : Option String := Option.none
  status : Option String := Option.none
  progress : Option PyVal := Option.none
  favorite : Option Bool := Option.none
  tags : Option (List String) := Option.none
  cover_path : Option (Option String) := Option.none
  rating : Option (Option Int) := Option.none
  notes : Option String := Option.none
  created_at : Option String := Option.none
  updated_at : Option String := Option.none
deriving DecidableEq, Repr

/-- `{**b, **ov}`: fields present in `ov` override `b`. -/
def RawBook.merge (b ov : RawBook) : RawBook where
  id := match ov.id with | some x => some x | Option.none => b.id
  title := match ov.title with | some x => some x | Option.none => b.title
  author := match ov.author with | some x => some x | Option.none => b.author
  status := match ov.status with | some x => some x | Option.none => b.status
  progress := match ov.progress with | some x => some x | Option.none => b.progress
  favorite := match ov.favorite with | some x => some x | Option.none => b.favorite
  tags := match ov.tags with | some x => some x | Option.none => b.tags
  cover_path := match ov.cover_path with | some x => some x | Option.none => b.cover_path
  rating := match ov.rating with | some x => some x | Option.none => b.rating
  notes := match ov.notes with | some x => some x | Option.none => b.notes
  created_at := match ov.created_at with | some x => some x | Option.none => b.created_at
  updated_at := match ov.updated_at with | some x => some x | Option.none => b.updated_at

/-- View a stored record as a dict with every key present. -/
def Book.toRaw (b : Book) : RawBook where
  id := some b.id
  title := some b.title
  author := some b.author
  status := some b.status
  progress := some (PyVal.int b.progress)
  favorite := some b.favorite
  tags := some b.tags
  cover_path := some b.cover_path
  rating := some b.rating
  notes := some b.notes
  created_at := some b.created_at
  updated_at := some b.updated_at

/-- `{t.strip() for t in tags if t.strip()}` before dedup/sort:
trimmed, non-empty tags (duplicates still present, in input order). -/
def cleanTags (tags : List String) : List String :=
  tags.filterMap fun t => if pyStrip t = "" then Option.none else some (pyStrip t)

/-- `sorted(list({t.strip() for t in tags if t.strip()}))` (src/app.py line 74).
Python's `sorted` on the duplicate-free set is modelled by insertion sort over
code-point order, which agrees with any sort on a duplicate-free list under a
linear order. -/
def normTags (tags : List String) : List String :=
  List.insertionSort strLe (cleanTags tags).dedup

/-- `max(0, min(100, p))` (src/app.py line 75). -/
def clampProgress (p : Int) : Int := max 0 (min 100 p)

/-- `int(merged.get("progress", 0) or 0)`: Python `or` takes the left operand
when truthy, else `0`; then `int(..)` converts (or raises). -/
def coerceProgress (v : PyVal) : Option Int :=
  (if v.truthy then v else PyVal.int 0).toInt

/-- `_ensure_defaults` (src/app.py lines 58-78).  `freshId` stands for
`str(uuid.uuid4())` and `now` for `datetime.now().isoformat(..)`.  The result
is `Option.none` when `int(..)` raises on the `progress` value. -/
def ensureDefaults (freshId now : String) (book : RawBook) : Option Book :=
  match coerceProgress (book.progress.getD (PyVal.int 0)) with
  | Option.none => Option.none
  | some p0 =>
    let progress := clampProgress p0
    some {
      id := book.id.getD freshId
      title := book.title.getD ""
      author := book.author.getD ""
      status := if progress ≥ 100 then "read" else book.status.getD "to_read"
      progress := progress
      favorite := book.favorite.getD false
      tags := normTags (book.tags.getD [])
      cover_path := book.cover_path.getD Option.none
      rating := book.rating.getD Option.none
      notes := book.notes.getD ""
      created_at := book.created_at.getD now
      updated_at := book.updated_at.getD now }

/-- In-memory collection plus the persisted artifacts: `books_db.json`
(`file`, written whole by `_save_db`) and `reading_recommendations.txt`
(`recFile`, appended to). -/
structure Store where
  mem : List Book
  file : List Book
  recFile : String
deriving DecidableEq, Repr

/-- `_find_by_id` (src/app.py lines 52-56). -/
def findById (db : List Book) (bid : String) : Option Book :=
  db.find? fun x => x.id == bid

/-- `for i, b in enumerate(db): if b["id"] == sid: db[i] = f(b); break`
(src/app.py lines 247-250); in-place mutation of the record the Quick Edit /
Currently Reading handlers hold is the same replacement. -/
def updateAt (db : List Book) (sid : String) (f : Book → Book) : List Book :=
  match db with
  | [] => []
  | b :: rest => if b.id = sid then f b :: rest else b :: updateAt rest sid f

/-- Everything the Add / Update form submits (src/app.py lines 191-202).
The widgets bound these values: the progress slider to `[0,100]`, the rating
spinner to `[1,10]`. -/
structure FormInput where
  title : String
  author : String
  status : String
  progress : Int
  favorite : Bool
  rating : Int
  tags : String
  notes : String
deriving DecidableEq, Repr

/-- `[t.strip() for t in tags.split(",") if t.strip()]`
(src/app.py lines 227 and 362): no dedup, no sort. -/
def splitTags (s : String) : List String :=
  (s.splitOn ",").filterMap fun t => if pyStrip t = "" then Option.none else some (pyStrip t)

/-- Fallback record for the unreachable `Option.none` branch of
`ensureDefaults` at form-save call sites (there `progress` is the slider's
integer, so `int(..)` cannot raise). -/
def dummyBook : Book where
  id := ""
  title := ""
  author := ""
  status := "to_read"
  progress := 0
  favorite := false
  tags := []
  cover_path := Option.none
  rating := Option.none
  notes := ""
  created_at := ""
  updated_at := ""

/-- The `book` dict built by the form submit handler (src/app.py lines
219-244), including the cover handling and the `progress >= 100` status
override.  `init` is `_find_by_id`'s result for the selected id. -/
def bookDict (init : Option Book) (inp : FormInput) (coverUpload : Option String)
    (freshId now : String) : RawBook :=
  let base : RawBook := {
    id := some ((init.map Book.id).getD freshId)
    title := some (pyStrip inp.title)
    author := some (pyStrip inp.author)
    status := some inp.status
    progress := some (PyVal.int inp.progress)
    favorite := some inp.favorite
    rating := some (if inp.rating ≠ 0 then some inp.rating else Option.none)
    tags := some (splitTags inp.tags)
    notes := some (pyStrip inp.notes)
    cover_path := match coverUpload with
      | some p => some (some p)
      | Option.none => match init.bind Book.cover_path with
        | some c => some (some c)
        | Option.none => Option.none
    created_at := Option.none
    updated_at := some now }
  if inp.progress ≥ 100 then { base with status := some "read" } else base

/-- The form submit handler (src/app.py lines 214-256): reject an empty
(stripped) title with an inline error, otherwise insert or update through
`_ensure_defaults` and persist the whole collection with `_save_db`.  The
second component is the inline error message, if any. -/
def formSaveStep (st : Store) (selectedId : Option String) (inp : FormInput)
    (coverUpload : Option String) (freshId now : String) : Store × Option String :=
  if pyStrip inp.title = "" then (st, some "Title is required.")
  else
    let init := selectedId.bind (findById st.mem)
    let bk := bookDict init inp coverUpload freshId now
    let db' := match selectedId with
      | some sid =>
        updateAt st.mem sid fun b => (ensureDefaults freshId now (RawBook.merge b.toRaw bk)).getD b
      | Option.none => st.mem ++ [(ensureDefaults freshId now bk).getD dummyBook]
    ({ st with mem := db', file := db' }, Option.none)

/-- The Add / Update tab (src/app.py lines 171-256): without the
write-capability flag the form is not rendered, so no submission can happen. -/
def formTab (canEdit : Bool) (st : Store) (selectedId : Option String) (inp : FormInput)
    (coverUpload : Option String) (freshId now : String) : Store × Option String :=
  if canEdit then formSaveStep st selectedId inp coverUpload freshId now else (st, Option.none)

/-- The Currently Reading "Update" handler (src/app.py lines 273-278), guarded
by `CAN_EDIT`; `newProg` is the slider value. -/
def readingUpdate (canEdit : Bool) (db : List Book) (bid : String) (newProg : Int)
    (now : String) : List Book :=
  if canEdit then
    updateAt db bid fun b =>
      { b with
        progress := newProg
        status := if newProg ≥ 100 then "read" else b.status
        updated_at := now }
  else db

/-- The Library Quick Edit "Save" handler (src/app.py lines 358-365), guarded
by `CAN_EDIT`.  Note: tags are split and stripped but not deduplicated or
sorted, and status is taken as-is. -/
def quickEditSave (canEdit : Bool) (db : List Book) (bid : String) (newFav : Bool)
    (newStatus : String) (newRating : Int) (newTags : String) (now : String) : List Book :=
  if canEdit then
    updateAt db bid fun b =>
      { b with
        favorite := newFav
        status := newStatus
        rating := if newRating ≠ 0 then some newRating else Option.none
        tags := splitTags newTags
        updated_at := now }
  else db

/-- The Library Quick Edit "Delete" handler (src/app.py lines 369-378),
guarded by `CAN_EDIT`: removes the first record with the held record's id. -/
def deleteBook (canEdit : Bool) (db : List Book) (bid : String) : List Book :=
  if canEdit then db.eraseP (fun b => b.id == bid) else db

/-- The admin login handler (src/app.py lines 97-103): the new value of
`st.session_state.can_edit` after the Login button; `secret` is
`st.secrets.get("ADMIN_PASS", "")`. -/
def login (pwd secret : String) : Bool :=
  pwd != "" && pwd == secret

/-- `int(init.get("rating") or 7)` — the rating widget's initial value
(src/app.py lines 200 and 345-349). -/
def ratingDefault (r : Option Int) : Int :=
  match r with
  | some n => if n ≠ 0 then n else 7
  | Option.none => 7

/-- `[b for b in db if b["status"] == "read"]` (src/app.py line 389). -/
def readBooks (db : List Book) : List Book :=
  db.filter fun b => b.status == "read"

/-- `read_books[:40]` — the records rendered into seed lines
(src/app.py line 395). -/
def seedBooks (db : List Book) : List Book :=
  (readBooks db).take 40

/-- One seed line (src/app.py lines 396-397). -/
def seedLine (b : Book) : String :=
  let tags := String.intercalate ", " b.tags
  let fav := if b.favorite then "yes" else "no"
  let rating := match b.rating with
    | some r => if r ≠ 0 then toString r else "-"
    | Option.none => "-"
  "- " ++ b.title ++ " — " ++ b.author ++ "  [tags: " ++ tags ++ "]  [fav:" ++ fav
    ++ "]  [rating:" ++ rating ++ "]"

/-- The assembled recommendation prompt (src/app.py lines 407-427). -/
def buildPrompt (wantN : Int) (focusTags : String) (seeds : List String) : String :=
  let focusTxt :=
    if pyStrip focusTags ≠ "" then "Priority tags: " ++ focusTags else "Priority: flexible"
  "\nYou are a seasoned literary curator. Based on the following \x27read\x27 books,\n"
    ++ "recommend **" ++ toString wantN ++ "** new books for the user.\n"
    ++ "For each recommendation, include briefly:\n- **Title — Author**\n"
    ++ "- Why recommended? (1–2 sentences)\n- Related themes / atmosphere\n"
    ++ "- Reading Difficulty: X/10\n\n" ++ focusTxt ++ "\n\nSummary of read books:\n"
    ++ String.intercalate "\n" seeds
    ++ "\n\nRules:\n- Answer in English.\n"
    ++ "- Avoid recommending many works by the same author consecutively.\n"
    ++ "- Strive for diversity (country/period/theme).\n"

/-- What the Recommendations tab shows after the Generate button. -/
inductive RecoDisplay where
  | output (text : String)
  | errorMsg (text : String)
deriving DecidableEq, Repr

/-- `seeds = [s for s in seed_lines if (("fav:yes" in s) if only_favs else True)]`
(src/app.py line 408). -/
def recoSeeds (db : List Book) (onlyFavs : Bool) : List String :=
  if onlyFavs then
    ((seedBooks db).map seedLine).filter fun s => isSubChars "fav:yes".data s.data
  else (seedBooks db).map seedLine

/-- The contents appended to `reading_recommendations.txt` on a save
(src/app.py lines 436-437). -/
def recEntry (now out : String) : String :=
  "\n===== " ++ now ++ " =====\n" ++ out ++ "\n"

/-- The Generate Recommendations handler (src/app.py lines 406-442): build the
seed lines, optionally keep only favorites, assemble the prompt, call the
external model (`invoke`; `Except.error` models a raised exception), and on
success optionally append to the recommendations file.  The collection is
never touched. -/
def generateRecommendations (st : Store) (wantN : Int) (focusTags : String)
    (onlyFavs canEdit saveClicked : Bool) (invoke : String → Except String String)
    (now : String) : RecoDisplay × Store :=
  match invoke (buildPrompt wantN focusTags (recoSeeds st.mem onlyFavs)) with
  | Except.ok out =>
    (RecoDisplay.output out,
      if canEdit && saveClicked then { st with recFile := st.recFile ++ recEntry now out }
      else st)
  | Except.error e => (RecoDisplay.errorMsg ("Error: " ++ e), st)

/-- `{t.strip().lower() for t in tag_filter.split(",") if t.strip()}`
(src/app.py line 298), as a list (the subset test below quantifies over it, so
duplicates are irrelevant). -/
def parseLowerTags (s : String) : List String :=
  (s.splitOn ",").filterMap fun t =>
    if pyStrip t = "" then Option.none else some (pyLower (pyStrip t))

/-- `qlow in b["title"].lower() or qlow in (b["author"] or "").lower()`
(src/app.py line 296), with `query` already stripped; this is also the text
clause of the spec 4.3 contract: the query as a case-insensitive substring of
title or author. -/
def textPred (query : String) (b : Book) : Bool :=
  isSubChars (pyLower query).data (pyLower b.title).data
    || isSubChars (pyLower query).data (pyLower b.author).data

/-- `wanted.issubset({t.lower() for t in b.get("tags", [])})`
(src/app.py line 299); also the spec 4.3 tag clause: the record contains all
requested tags, case-insensitively (AND semantics). -/
def tagsPred (wanted : List String) (b : Book) : Bool :=
  wanted.all fun w => (b.tags.map pyLower).contains w

/-- `b["status"] == status_pick` (src/app.py line 303). -/
def statusPred (s : String) (b : Book) : Bool := b.status == s

/-- The Library tab's filter pipeline (src/app.py lines 293-303), applied to
the sidebar inputs: text query `q`, comma-separated `tagFilter`, `favOnly`
checkbox and `statusPick` selectbox.  Each stage is applied only when its
widget is active, exactly as the source's `if` chain. -/
def libraryFilter (q tagFilter : String) (favOnly : Bool) (statusPick : String)
    (db : List Book) : List Book :=
  let f1 := if q ≠ "" then db.filter (textPred (pyStrip q)) else db
  let f2 :=
    if pyStrip tagFilter ≠ "" then f1.filter (tagsPred (parseLowerTags tagFilter)) else f1
  let f3 := if favOnly then f2.filter (fun b => b.favorite) else f2
  if statusPick ≠ "All" then f3.filter (statusPred statusPick) else f3

/-- The filter contract of spec section 4.3, one record at a time: the
(stripped) text query is a case-insensitive substring of title or author, the
requested tag set is contained in the record's tags case-insensitively, the
favorites-only flag is satisfied, and the record has the selected status.
An empty query and an empty tag set hold vacuously. -/
def specMatches (query : String) (wanted : List String) (favOnly : Bool)
    (statusSel : Option String) (b : Book) : Bool :=
  ((textPred query b && tagsPred wanted b) && (!favOnly || b.favorite))
    && (match statusSel with
      | Option.none => true
      | some s => statusPred s b)

/-- The spec-side tag set drawn from the tag filter box: empty when the box is
blank, otherwise its stripped, lowered, comma-separated entries. -/
def effWanted (tagFilter : String) : List String :=
  if pyStrip tagFilter ≠ "" then parseLowerTags tagFilter else []

/-- The spec-side status selection: `All` means no constraint. -/
def effStatus (statusPick : String) : Option String :=
  if statusPick ≠ "All" then some statusPick else Option.none

/-- A well-formed stored record used for concrete scenarios. -/
def sampleBook : Book where
  id := "b1"
  title := "T"
  author := "A"
  status := "read"
  progress := 100
  favorite := false
  tags := []
  cover_path := Option.none
  rating := Option.none
  notes := ""
  created_at := "t0"
  updated_at := "t0"

def sampleDb : List Book := [sampleBook]

def sampleStore : Store where
  mem := sampleDb
  file := sampleDb
  recFile := ""

/-- A form submission whose title is whitespace only. -/
def blankTitleInput : FormInput where
  title := "   "
  author := ""
  status := "to_read"
  progress := 0
  favorite := false
  rating := 7
  tags := ""
  notes := ""

/-- A collection of 41 `read` records. -/
def db41 : List Book := List.replicate 41 sampleBook

/-- A raw record whose tags need trimming, dedup and sorting. -/
def rawTagged : RawBook := { tags := some [" b", "a", "b "] }

/-- What `_ensure_defaults "i" "t"` produces on `rawTagged`. -/
def normedTagged : Book where
  id := "i"
  title := ""
  author := ""
  status := "to_read"
  progress := 0
  favorite := false
  tags := ["a", "b"]
  cover_path := Option.none
  rating := Option.none
  notes := ""
  created_at := "t"
  updated_at := "t"

/-- A raw record with an out-of-range numeric progress. -/
def rawProg150 : RawBook := { progress := some (PyVal.int 150) }

/-- A well-formed form submission. -/
def validInput : FormInput where
  title := "New"
  author := ""
  status := "to_read"
  progress := 10
  favorite := false
  rating := 7
  tags := "b,a"
  notes := ""

/-- The record invariants of spec section 3: progress within `[0,100]`, full
progress forces status `read`, tags duplicate-free and sorted. -/
def InvBook (b : Book) : Prop :=
  0 ≤ b.progress ∧ b.progress ≤ 100 ∧ (b.progress = 100 → b.status = "read")
    ∧ b.tags.Sorted strLe ∧ b.tags.Nodup

/-- Every record of the collection satisfies the record invariants. -/
def InvAll (db : List Book) : Prop := ∀ b ∈ db, InvBook b

instance (b : Book) : Decidable (InvBook b) := by
  unfold InvBook
  infer_instance

instance (db : List Book) : Decidable (InvAll db) := by
  unfold InvAll
  exact List.decidableBAll _ db

theorem dropWhile_idem {α : Type} (p : α → Bool) (l : List α) :
    (l.dropWhile p).dropWhile p = l.dropWhile p := by
  induction l with
  | nil => rfl
  | cons a t ih =>
    by_cases h : p a
    · simp [List.dropWhile_cons, h, ih]
    · simp [List.dropWhile_cons, h]

theorem stripEnd_cons (a : Char) (t : List Char) :
    stripEnd (a :: t) =
      if stripEnd t = [] then (if a.isWhitespace then [] else [a]) else a :: stripEnd t := by
  have hiff : ((t.reverse.dropWhile Char.isWhitespace).isEmpty = true) ↔ stripEnd t = [] := by
    simp [stripEnd, List.isEmpty_iff]
  have key : stripEnd (a :: t) = ((t.reverse ++ [a]).dropWhile Char.isWhitespace).reverse := by
    rw [stripEnd, List.reverse_cons]
  rw [key, List.dropWhile_append]
  by_cases h : stripEnd t = []
  · rw [if_pos (hiff.mpr h), if_pos h]
    by_cases ha : a.isWhitespace
    · simp [List.dropWhile_cons, ha]
    · simp [List.dropWhile_cons, ha]
  · rw [if_neg (fun hh => h (hiff.mp hh)), if_neg h, List.reverse_append]
    simp [stripEnd]

theorem dropWhile_stripEnd (l : List Char) :
    (stripEnd l).dropWhile Char.isWhitespace = stripEnd (l.dropWhile Char.isWhitespace) := by
  induction l with
  | nil => rfl
  | cons a t ih =>
    by_cases ha : a.isWhitespace
    · rw [List.dropWhile_cons_of_pos ha, stripEnd_cons]
      by_cases h : stripEnd t = []
      · rw [if_pos h, if_pos ha, ← ih, h]
      · rw [if_neg h, List.dropWhile_cons_of_pos ha, ih]
    · rw [List.dropWhile_cons_of_neg ha, stripEnd_cons]
      by_cases h : stripEnd t = []
      · rw [if_pos h, if_neg ha]
        simp [List.dropWhile_cons, ha]
      · rw [if_neg h, List.dropWhile_cons_of_neg ha]

theorem stripEnd_idem (l : List Char) : stripEnd (stripEnd l) = stripEnd l := by
  unfold stripEnd
  rw [List.reverse_reverse, dropWhile_idem]

theorem stripList_idem (l : List Char) : stripList (stripList l) = stripList l := by
  unfold stripList
  rw [dropWhile_stripEnd, dropWhile_idem, stripEnd_idem]

theorem pyStrip_idem (s : String) : pyStrip (pyStrip s) = pyStrip s :=
  congrArg String.mk (stripList_idem s.data)

theorem charListLe_total (s t : List Char) : charListLe s t = true ∨ charListLe t s = true := by
  induction s generalizing t with
  | nil => left; rfl
  | cons a s ih =>
    cases t with
    | nil => right; rfl
    | cons b t =>
      rcases Nat.lt_trichotomy a.toNat b.toNat with h | h | h
      · left; simp [charListLe, h]
      · rcases ih t with h2 | h2
        · left; simp [charListLe, h, Nat.lt_irrefl, h2]
        · right; simp [charListLe, h, Nat.lt_irrefl, h2]
      · right; simp [charListLe, h]

theorem charListLe_trans {s t u : List Char} (h1 : charListLe s t = true)
    (h2 : charListLe t u = true) : charListLe s u = true := by
  induction s generalizing t u with
  | nil => rfl
  | cons a s ih =>
    cases t with
    | nil => simp [charListLe] at h1
    | cons b t =>
      cases u with
      | nil => simp [charListLe] at h2
      | cons c u =>
        simp only [charListLe] at h1 h2 ⊢
        split_ifs at h1 h2 ⊢ <;> first
          | rfl
          | (exact ih h1 h2)
          | (exact absurd h1 Bool.false_ne_true)
          | (exact absurd h2 Bool.false_ne_true)
          | (exfalso; omega)

instance : IsTotal String strLe := ⟨fun s t => charListLe_total s.data t.data⟩

instance : IsTrans String strLe := ⟨fun _ _ _ => charListLe_trans⟩

theorem mem_cleanTags {s : String} {l : List String} :
    s ∈ cleanTags l ↔ s ≠ "" ∧ ∃ t ∈ l, pyStrip t = s := by
  unfold cleanTags
  rw [List.mem_filterMap]
  constructor
  · rintro ⟨t, ht, hs⟩
    by_cases h : pyStrip t = ""
    · rw [if_pos h] at hs
      exact absurd hs (by simp)
    · rw [if_neg h] at hs
      have he := Option.some.inj hs
      exact ⟨he ▸ h, t, ht, he⟩
  · rintro ⟨hne, t, ht, hs⟩
    refine ⟨t, ht, ?h⟩
    rw [hs, if_neg hne]

theorem mem_normTags {s : String} {l : List String} :
    s ∈ normTags l ↔ s ≠ "" ∧ ∃ t ∈ l, pyStrip t = s := by
  unfold normTags
  rw [List.mem_insertionSort, List.mem_dedup]
  exact mem_cleanTags

theorem normTags_sorted (l : List String) : (normTags l).Sorted strLe :=
  List.sorted_insertionSort strLe _

theorem normTags_nodup (l : List String) : (normTags l).Nodup :=
  ((List.perm_insertionSort strLe _).nodup_iff).mpr (List.nodup_dedup _)

theorem filterMap_id_on {α : Type} (f : α → Option α) (l : List α)
    (h : ∀ a ∈ l, f a = some a) : l.filterMap f = l := by
  induction l with
  | nil => rfl
  | cons a t ih =>
    rw [List.filterMap_cons, h a (List.mem_cons_self a t),
      ih fun x hx => h x (List.mem_cons_of_mem a hx)]

theorem cleanTags_of_normed (l : List String) : cleanTags (normTags l) = normTags l := by
  apply filterMap_id_on
  intro a ha
  obtain ⟨hne, t, _, hs⟩ := mem_normTags.mp ha
  have hfix : pyStrip a = a := by rw [← hs, pyStrip_idem]
  rw [hfix, if_neg hne]

theorem normTags_idem (l : List String) : normTags (normTags l) = normTags l := by
  conv_lhs => rw [normTags, cleanTags_of_normed, (normTags_nodup l).dedup]
  exact (normTags_sorted l).insertionSort_eq

theorem coerceProgress_int (k : Int) : coerceProgress (PyVal.int k) = some k := by
  by_cases h : k = 0 <;> simp [coerceProgress, PyVal.truthy, PyVal.toInt, h]

theorem clampProgress_nonneg (p : Int) : 0 ≤ clampProgress p := le_max_left 0 _

theorem clampProgress_le (p : Int) : clampProgress p ≤ 100 :=
  max_le (by norm_num) (min_le_left 100 p)

theorem clampProgress_eq_self {p : Int} (h0 : 0 ≤ p) (h1 : p ≤ 100) : clampProgress p = p := by
  unfold clampProgress
  omega

theorem ensureDefaults_inv {f n : String} {raw : RawBook} {b : Book}
    (h : ensureDefaults f n raw = some b) : InvBook b := by
  unfold ensureDefaults at h
  cases hc : coerceProgress (raw.progress.getD (PyVal.int 0)) with
  | none => rw [hc] at h; exact absurd h (by simp)
  | some p0 =>
    rw [hc] at h
    simp only [Option.some_inj] at h
    subst h
    refine ⟨clampProgress_nonneg p0, clampProgress_le p0, ?hs, normTags_sorted _, normTags_nodup _⟩
    intro hp
    have hp2 : clampProgress p0 = 100 := hp
    show (if clampProgress p0 ≥ 100 then "read" else raw.status.getD "to_read") = "read"
    rw [if_pos (by omega : clampProgress p0 ≥ 100)]

/-- Inverting a successful `ensureDefaults` run: the output is the defaulted,
normalized record determined by the input and the coerced progress. -/
theorem ensureDefaults_inversion (f n : String) (raw : RawBook) (b : Book)
    (h : ensureDefaults f n raw = some b) :
    ∃ p0, coerceProgress (raw.progress.getD (PyVal.int 0)) = some p0
      ∧ b = { id := raw.id.getD f
              title := raw.title.getD ""
              author := raw.author.getD ""
              status := if clampProgress p0 ≥ 100 then "read" else raw.status.getD "to_read"
              progress := clampProgress p0
              favorite := raw.favorite.getD false
              tags := normTags (raw.tags.getD [])
              cover_path := raw.cover_path.getD Option.none
              rating := raw.rating.getD Option.none
              notes := raw.notes.getD ""
              created_at := raw.created_at.getD n
              updated_at := raw.updated_at.getD n } := by
  unfold ensureDefaults at h
  cases hc : coerceProgress (raw.progress.getD (PyVal.int 0)) with
  | none => rw [hc] at h; exact absurd h (by simp)
  | some p0 =>
    rw [hc] at h
    exact ⟨p0, rfl, (Option.some.inj h).symm⟩

/-- When `progress` holds a Python int, `_ensure_defaults` cannot raise and
its output is fully determined. -/
theorem ensureDefaults_of_int (f n : String) (raw : RawBook) (k : Int)
    (h : raw.progress = some (PyVal.int k)) :
    ensureDefaults f n raw
      = some { id := raw.id.getD f
               title := raw.title.getD ""
               author := raw.author.getD ""
               status := if clampProgress k ≥ 100 then "read" else raw.status.getD "to_read"
               progress := clampProgress k
               favorite := raw.favorite.getD false
               tags := normTags (raw.tags.getD [])
               cover_path := raw.cover_path.getD Option.none
               rating := raw.rating.getD Option.none
               notes := raw.notes.getD ""
               created_at := raw.created_at.getD n
               updated_at := raw.updated_at.getD n } := by
  unfold ensureDefaults
  rw [h, Option.getD_some, coerceProgress_int]

/-- Whatever `Option.getD` fallback is used, a record drawn from
`ensureDefaults` satisfies the invariants as soon as the fallback does. -/
theorem invBook_getD (f n : String) (raw : RawBook) (c : Book) (hc : InvBook c) :
    InvBook ((ensureDefaults f n raw).getD c) := by
  cases h : ensureDefaults f n raw with
  | none => simpa using hc
  | some b => simpa using ensureDefaults_inv h

theorem isSubChars_nil (l : List Char) : isSubChars [] l = true := by
  cases l <;> rfl

theorem bookDict_progress (init : Option Book) (inp : FormInput) (cov : Option String)
    (f n : String) : (bookDict init inp cov f n).progress = some (PyVal.int inp.progress) := by
  simp only [bookDict]
  split <;> rfl

theorem bookDict_rating (init : Option Book) (inp : FormInput) (cov : Option String)
    (f n : String) :
    (bookDict init inp cov f n).rating
      = some (if inp.rating ≠ 0 then some inp.rating else Option.none) := by
  simp only [bookDict]
  split <;> rfl

theorem merge_progress (base ov : RawBook) {v : PyVal} (h : ov.progress = some v) :
    (RawBook.merge base ov).progress = some v := by
  unfold RawBook.merge
  rw [h]

theorem merge_rating (base ov : RawBook) {v : Option Int} (h : ov.rating = some v) :
    (RawBook.merge base ov).rating = some v := by
  unfold RawBook.merge
  rw [h]

theorem mem_updateAt {db : List Book} {sid : String} {f : Book → Book} {x : Book}
    (h : x ∈ updateAt db sid f) : x ∈ db ∨ ∃ b ∈ db, x = f b := by
  induction db with
  | nil => exact absurd h (by simp [updateAt])
  | cons b rest ih =>
    unfold updateAt at h
    by_cases hb : b.id = sid
    · rw [if_pos hb] at h
      rcases List.mem_cons.mp h with h1 | h1
      · exact Or.inr ⟨b, List.mem_cons_self b rest, h1⟩
      · exact Or.inl (List.mem_cons_of_mem b h1)
    · rw [if_neg hb] at h
      rcases List.mem_cons.mp h with h1 | h1
      · exact Or.inl (h1 ▸ List.mem_cons_self b rest)
      · rcases ih h1 with h2 | ⟨c, hc, hx⟩
        · exact Or.inl (List.mem_cons_of_mem b h2)
        · exact Or.inr ⟨c, List.mem_cons_of_mem b hc, hx⟩

/-- C4: for every collection, the recommendation seed list is drawn from the
collection in original order (a sublist), contains only records with status
`read`, is an initial segment of the read records, has length
`min 40 (number of read records)`, and with 41 read records keeps exactly the
first 40. -/
theorem C4_seed_list (db : List Book) :
    List.Sublist (seedBooks db) db
    ∧ (∀ b ∈ seedBooks db, b.status = "read")
    ∧ List.IsPrefix (seedBooks db) (readBooks db)
    ∧ (seedBooks db).length = min 40 (readBooks db).length
    ∧ ((readBooks db).length = 41 → (seedBooks db).length = 40) := by
  refine ⟨?s, ?r, ?p, ?l, ?c⟩
  case s => exact (List.take_sublist 40 _).trans (List.filter_sublist db)
  case r =>
    intro b hb
    have hb2 : b ∈ readBooks db := List.mem_of_mem_take hb
    exact eq_of_beq (List.mem_filter.mp hb2).2
  case p => exact List.take_prefix 40 _
  case l => exact List.length_take 40 _
  case c =>
    intro h
    rw [seedBooks, List.length_take, h]
    decide

/-- C4 witness: on a 41-record all-read collection the seed list has exactly
40 records. -/
theorem C4_seed_list_witness : (seedBooks db41).length = 40 :=
  (C4_seed_list db41).2.2.2.2 (by decide)

/-- C8: a form submission whose title strips to the empty string is rejected
with the inline error, and both the in-memory collection and the persisted
file are left untouched. -/
theorem C8_empty_title_rejected (st : Store) (selectedId : Option String) (inp : FormInput)
    (coverUpload : Option String) (freshId now : String) (h : pyStrip inp.title = "") :
    formSaveStep st selectedId inp coverUpload freshId now = (st, some "Title is required.") := by
  unfold formSaveStep
  rw [if_pos h]

/-- C8 witness: a whitespace-only title on a concrete store. -/
theorem C8_empty_title_rejected_witness :
    formSaveStep sampleStore Option.none blankTitleInput Option.none "f" "t"
      = (sampleStore, some "Title is required.") :=
  C8_empty_title_rejected sampleStore Option.none blankTitleInput Option.none "f" "t" (by decide)

/-- C9: a login attempt with a password different from the configured secret
leaves the write-capability flag false, and with the flag false every write
handler (add/update form, reading progress update, quick edit save, delete)
returns the collection unchanged. -/
theorem C9_wrong_password (pwd secret : String) (h : pwd ≠ secret) :
    login pwd secret = false
    ∧ (∀ st selectedId inp coverUpload freshId now,
        formTab false st selectedId inp coverUpload freshId now = (st, Option.none))
    ∧ (∀ db bid newProg now, readingUpdate false db bid newProg now = db)
    ∧ (∀ db bid nf ns nr nt now, quickEditSave false db bid nf ns nr nt now = db)
    ∧ (∀ db bid, deleteBook false db bid = db) := by
  refine ⟨?l, fun _ _ _ _ _ _ => rfl, fun _ _ _ _ => rfl, fun _ _ _ _ _ _ _ => rfl,
    fun _ _ => rfl⟩
  unfold login
  rw [beq_eq_false_iff_ne.mpr h, Bool.and_false]

/-- C9 witness: a concrete wrong password and a concrete rejected quick edit. -/
theorem C9_wrong_password_witness :
    login "guess" "secret" = false
      ∧ quickEditSave false sampleDb "b1" true "reading" 5 "x,y" "t9" = sampleDb :=
  ⟨(C9_wrong_password "guess" "secret" (by decide)).1,
    (C9_wrong_password "guess" "secret" (by decide)).2.2.2.1 sampleDb "b1" true "reading" 5
      "x,y" "t9"⟩

/-- C3: if the external model call raises, the Recommendations handler shows
the error message instead of propagating the fault; and for any model
behavior at all, the handler never changes the in-memory collection or the
persisted books file. -/
theorem C3_llm_failure_safe (f : String → Except String String) (e : String)
    (hf : ∀ p, f p = Except.error e) :
    (∀ st wantN focusTags onlyFavs canEdit saveClicked now,
        generateRecommendations st wantN focusTags onlyFavs canEdit saveClicked f now
          = (RecoDisplay.errorMsg ("Error: " ++ e), st))
    ∧ (∀ (g : String → Except String String) st wantN focusTags onlyFavs canEdit saveClicked
        now,
        (generateRecommendations st wantN focusTags onlyFavs canEdit saveClicked g now).2.mem
            = st.mem
          ∧ (generateRecommendations st wantN focusTags onlyFavs canEdit saveClicked g
              now).2.file = st.file) := by
  constructor
  · intro st wantN focusTags onlyFavs canEdit saveClicked now
    simp only [generateRecommendations, hf]
  · intro g st wantN focusTags onlyFavs canEdit saveClicked now
    refine ⟨?m, ?f⟩
    all_goals unfold generateRecommendations
    all_goals repeat' split
    all_goals rfl

/-- C3 witness: a concrete failing model call on a concrete store. -/
theorem C3_llm_failure_safe_witness :
    generateRecommendations sampleStore 10 "" true false false (fun _ => Except.error "boom")
        "t" = (RecoDisplay.errorMsg ("Error: " ++ "boom"), sampleStore) :=
  (C3_llm_failure_safe (fun _ => Except.error "boom") "boom" (fun _ => rfl)).1 sampleStore 10
    "" true false false "t"

/-- A successful submission adds or replaces entries only through
`_ensure_defaults`: every record of the saved collection is an old record, the
normalized new-record dict, or the normalization of an old record merged with
the form dict. -/
theorem formSaveStep_mem (st : Store) (sel : Option String) (inp : FormInput)
    (cov : Option String) (f n : String) (hne : pyStrip inp.title ≠ "") (b : Book)
    (hb : b ∈ (formSaveStep st sel inp cov f n).1.mem) :
    b ∈ st.mem
      ∨ b = (ensureDefaults f n (bookDict Option.none inp cov f n)).getD dummyBook
      ∨ ∃ sid c, sel = some sid ∧ c ∈ st.mem
          ∧ b = (ensureDefaults f n
              (RawBook.merge c.toRaw (bookDict (findById st.mem sid) inp cov f n))).getD c := by
  cases sel with
  | none =>
    simp only [formSaveStep, if_neg hne, Option.none_bind] at hb
    rcases List.mem_append.mp hb with h | h
    · exact Or.inl h
    · refine Or.inr (Or.inl ?e)
      simpa using h
  | some sid =>
    simp only [formSaveStep, if_neg hne, Option.some_bind] at hb
    rcases mem_updateAt hb with h | ⟨c, hc, hx⟩
    · exact Or.inl h
    · exact Or.inr (Or.inr ⟨sid, c, rfl, hc, hx⟩)

/-- C7: on any successful normalization, the output tags are sorted,
duplicate-free, and hold exactly the non-empty stripped input tags. -/
theorem C7_tags_normalized (f n : String) (raw : RawBook) (b : Book)
    (h : ensureDefaults f n raw = some b) :
    b.tags.Sorted strLe ∧ b.tags.Nodup
      ∧ ∀ s, s ∈ b.tags ↔ (s ≠ "" ∧ ∃ t ∈ raw.tags.getD [], pyStrip t = s) := by
  obtain ⟨p0, hc, hb⟩ := ensureDefaults_inversion f n raw b h
  have htags : b.tags = normTags (raw.tags.getD []) := by rw [hb]
  rw [htags]
  exact ⟨normTags_sorted _, normTags_nodup _, fun s => mem_normTags⟩

/-- C7 witness: a concrete raw record with untrimmed, duplicated, unsorted
tags. -/
theorem C7_tags_normalized_witness :
    normedTagged.tags.Sorted strLe ∧ normedTagged.tags.Nodup
      ∧ ∀ s, s ∈ normedTagged.tags
        ↔ (s ≠ "" ∧ ∃ t ∈ rawTagged.tags.getD [], pyStrip t = s) :=
  C7_tags_normalized "i" "t" rawTagged normedTagged (by decide)

/-- C2 counterexample: `_ensure_defaults` does not stamp a fresh `updated_at`
on a record that already carries one — `{**defaults, **book}` lets the input
value win, so a read-then-resave keeps the old timestamp. -/
theorem C2_counterexample :
    (ensureDefaults "id1" "2024-01-01T00:00:00"
        { updated_at := some "2020-01-01T00:00:00" }).map Book.updated_at
      = some "2020-01-01T00:00:00"
    ∧ ("2020-01-01T00:00:00" : String) ≠ "2024-01-01T00:00:00" := by decide

/-- C2 amended: normalize keeps an input-supplied `updated_at` and stamps the
current time only when the field is absent; consequently it is idempotent on
its own output in every field, `updated_at` included. -/
theorem C2_amended (f n : String) (raw : RawBook) (b : Book)
    (h : ensureDefaults f n raw = some b) :
    b.updated_at = raw.updated_at.getD n
    ∧ ∀ f2 n2, ensureDefaults f2 n2 b.toRaw = some b := by
  obtain ⟨p0, hc, hb⟩ := ensureDefaults_inversion f n raw b h
  have hinv := ensureDefaults_inv h
  constructor
  · rw [hb]
  · intro f2 n2
    have hin := ensureDefaults_of_int f2 n2 b.toRaw b.progress rfl
    rw [hin, Option.some_inj]
    have hcl : clampProgress b.progress = b.progress :=
      clampProgress_eq_self hinv.1 hinv.2.1
    have hst : (if b.progress ≥ 100 then "read" else b.status) = b.status := by
      have hle : b.progress ≤ 100 := hinv.2.1
      by_cases hp : b.progress ≥ 100
      · rw [if_pos hp]
        exact (hinv.2.2.1 (by omega)).symm
      · rw [if_neg hp]
    have htg : normTags b.tags = b.tags := by
      have hq : b.tags = normTags (raw.tags.getD []) := by rw [hb]
      rw [hq, normTags_idem]
    simp only [Book.toRaw, Option.getD_some, hcl]
    rw [hst, htg]

/-- C2 amended witness: a concrete normalized record resurvives normalize
unchanged. -/
theorem C2_amended_witness :
    normedTagged.updated_at = (rawTagged.updated_at).getD "t"
      ∧ ∀ f2 n2, ensureDefaults f2 n2 normedTagged.toRaw = some normedTagged :=
  C2_amended "i" "t" rawTagged normedTagged (by decide)

/-- C6 counterexample: a record whose `progress` is a truthy non-numeric
string makes `int(..)` raise inside `_ensure_defaults` instead of being
coerced to 0. -/
theorem C6_counterexample :
    ensureDefaults "i" "t" { progress := some (PyVal.str "abc") } = Option.none := by decide

/-- C6 amended: whenever normalize returns, progress lies in `[0,100]`; a
Python-int progress is clamped (so normalize cannot raise on it); a falsy
progress value, or an absent one, is coerced to 0; but normalize raises on
truthy non-numeric progress values rather than coercing them. -/
theorem C6_amended (f n : String) (raw : RawBook) (k : Int) (v : PyVal) :
    (∀ b, ensureDefaults f n raw = some b → 0 ≤ b.progress ∧ b.progress ≤ 100)
    ∧ (raw.progress = some (PyVal.int k) →
        ∃ b, ensureDefaults f n raw = some b ∧ b.progress = clampProgress k)
    ∧ (raw.progress = some v → v.truthy = false →
        ∃ b, ensureDefaults f n raw = some b ∧ b.progress = 0)
    ∧ (raw.progress = Option.none →
        ∃ b, ensureDefaults f n raw = some b ∧ b.progress = 0) := by
  refine ⟨?bound, ?num, ?falsy, ?absent⟩
  case bound =>
    intro b hb
    have hi := ensureDefaults_inv hb
    exact ⟨hi.1, hi.2.1⟩
  case num =>
    intro hp
    exact ⟨_, ensureDefaults_of_int f n raw k hp, rfl⟩
  case falsy =>
    intro hp hv
    have hc : coerceProgress (raw.progress.getD (PyVal.int 0)) = some 0 := by
      rw [hp, Option.getD_some]
      simp [coerceProgress, hv, PyVal.toInt]
    unfold ensureDefaults
    rw [hc]
    exact ⟨_, rfl, show clampProgress 0 = 0 by norm_num [clampProgress]⟩
  case absent =>
    intro hp
    unfold ensureDefaults
    rw [hp]
    rw [show ((Option.none : Option PyVal).getD (PyVal.int 0)) = PyVal.int 0 from rfl,
      coerceProgress_int]
    exact ⟨_, rfl, show clampProgress 0 = 0 by norm_num [clampProgress]⟩

/-- C6 amended witness: progress 150 is clamped, not rejected. -/
theorem C6_amended_witness :
    ∃ b, ensureDefaults "i" "t" rawProg150 = some b ∧ b.progress = clampProgress 150 :=
  (C6_amended "i" "t" rawProg150 150 PyVal.none).2.1 rfl

/-- C1 counterexample: Quick Edit Save bypasses `_ensure_defaults`, so on an
invariant-satisfying collection it can set a `progress == 100` record's status
to `reading`, leaving a persisted record violating
`progress == 100 implies status == read`. -/
theorem C1_counterexample :
    InvAll sampleDb
      ∧ ¬ InvAll (quickEditSave true sampleDb "b1" false "reading" 5 "x" "t1") := by decide

/-- C1 amended: the Add/Update form save preserves the record invariants
unconditionally (it funnels through `_ensure_defaults`), the Currently Reading
update preserves them for every slider value in `[0,100]`, but Quick Edit Save
guarantees only the progress bounds (it leaves progress untouched); it does
not re-normalize tags nor re-derive status, and can break those invariants. -/
theorem C1_amended (db : List Book) (hInv : InvAll db) :
    (∀ fileDb recF sel inp cov f n,
        InvAll (formSaveStep ⟨db, fileDb, recF⟩ sel inp cov f n).1.mem)
    ∧ (∀ canEdit bid newProg now, 0 ≤ newProg → newProg ≤ 100 →
        InvAll (readingUpdate canEdit db bid newProg now))
    ∧ (∀ canEdit bid nf ns nr nt now,
        ∀ b ∈ quickEditSave canEdit db bid nf ns nr nt now,
          0 ≤ b.progress ∧ b.progress ≤ 100) := by
  refine ⟨?form, ?reading, ?quick⟩
  case form =>
    intro fileDb recF sel inp cov f n b hb
    by_cases ht : pyStrip inp.title = ""
    · unfold formSaveStep at hb
      rw [if_pos ht] at hb
      exact hInv b hb
    · rcases formSaveStep_mem _ _ _ _ _ _ ht b hb with h | h | ⟨sid, c, hsel, hc, hx⟩
      · exact hInv b h
      · rw [h]
        exact invBook_getD f n _ dummyBook (by decide)
      · rw [hx]
        exact invBook_getD f n _ c (hInv c hc)
  case reading =>
    intro canEdit bid newProg now h0 h1 b hb
    unfold readingUpdate at hb
    cases canEdit with
    | false => exact hInv b (by simpa using hb)
    | true =>
      rw [if_pos rfl] at hb
      rcases mem_updateAt hb with h | ⟨c, hc, hx⟩
      · exact hInv b h
      · have hic := hInv c hc
        rw [hx]
        refine ⟨h0, h1, ?st, hic.2.2.2.1, hic.2.2.2.2⟩
        intro hp
        have hp2 : newProg = 100 := hp
        show (if newProg ≥ 100 then "read" else c.status) = "read"
        rw [if_pos (by omega : newProg ≥ 100)]
  case quick =>
    intro canEdit bid nf ns nr nt now b hb
    unfold quickEditSave at hb
    cases canEdit with
    | false =>
      have := hInv b (by simpa using hb)
      exact ⟨this.1, this.2.1⟩
    | true =>
      rw [if_pos rfl] at hb
      rcases mem_updateAt hb with h | ⟨c, hc, hx⟩
      · have := hInv b h
        exact ⟨this.1, this.2.1⟩
      · have hic := hInv c hc
        rw [hx]
        exact ⟨hic.1, hic.2.1⟩

/-- C1 amended witness: a Currently Reading update on a concrete well-formed
collection. -/
theorem C1_amended_witness : InvAll (readingUpdate true sampleDb "b1" 50 "t2") :=
  (C1_amended sampleDb (by decide)).2.1 true "b1" 50 "t2" (by decide) (by decide)

/-- C10: with the rating widget constrained to `[1,10]`, every record an
Add/Update submission writes (inserted or replaced) carries
`rating = the widget value`, an integer in `[1,10]` and never `None`; and the
widget's initial value for a record with no rating is the default 7, so an
untouched widget silently persists 7 on resave. -/
theorem C10_rating_always_set (st : Store) (inp : FormInput) (cov : Option String)
    (f n : String) (h1 : 1 ≤ inp.rating) (h2 : inp.rating ≤ 10) :
    ratingDefault Option.none = 7
    ∧ ∀ sel b, b ∈ (formSaveStep st sel inp cov f n).1.mem →
        b ∈ st.mem ∨ (b.rating = some inp.rating ∧ 1 ≤ inp.rating ∧ inp.rating ≤ 10) := by
  refine ⟨rfl, ?w⟩
  have hr0 : inp.rating ≠ 0 := by omega
  have key : ∀ raw : RawBook, raw.rating = some (some inp.rating) →
      raw.progress = some (PyVal.int inp.progress) → ∀ c : Book,
      ((ensureDefaults f n raw).getD c).rating = some inp.rating := by
    intro raw hr hp c
    rw [ensureDefaults_of_int f n raw inp.progress hp, Option.getD_some]
    show raw.rating.getD Option.none = some inp.rating
    rw [hr, Option.getD_some]
  intro sel b hb
  by_cases ht : pyStrip inp.title = ""
  · left
    unfold formSaveStep at hb
    rw [if_pos ht] at hb
    exact hb
  · rcases formSaveStep_mem st sel inp cov f n ht b hb with h | h | ⟨sid, c, hsel, hc, hx⟩
    · exact Or.inl h
    · right
      refine ⟨?r, h1, h2⟩
      rw [h]
      exact key _ (by rw [bookDict_rating, if_pos hr0]) (bookDict_progress _ _ _ _ _) dummyBook
    · right
      refine ⟨?r2, h1, h2⟩
      rw [hx]
      refine key _ ?hr ?hp c
      case hr =>
        rw [merge_rating _ _ (bookDict_rating _ inp cov f n), if_pos hr0]
      case hp =>
        exact merge_progress _ _ (bookDict_progress _ inp cov f n)

/-- C10 witness: the default-7 fact through a concrete valid submission. -/
theorem C10_rating_always_set_witness : ratingDefault Option.none = 7 :=
  (C10_rating_always_set sampleStore validInput Option.none "f" "t" (by decide) (by decide)).1

theorem textPred_empty (b : Book) : textPred "" b = true := by
  show (isSubChars [] (pyLower b.title).data || isSubChars [] (pyLower b.author).data) = true
  rw [isSubChars_nil, isSubChars_nil]
  rfl

/-- C5: the Library tab's staged, conditionally applied filter pipeline
returns exactly `db.filter` of the spec 4.3 per-record predicate — the
conjunction of the case-insensitive text match on title/author, the
case-insensitive all-tags containment, the favorites flag and the status
selection — applied to the effective inputs (stripped query, parsed tag set,
`All` meaning no status constraint); in particular the result is a
subsequence of the collection in original order. -/
theorem C5_filter_refines_spec (q tagFilter : String) (favOnly : Bool)
    (statusPick : String) (db : List Book) :
    libraryFilter q tagFilter favOnly statusPick db
        = db.filter
          (specMatches (pyStrip q) (effWanted tagFilter) favOnly (effStatus statusPick))
    ∧ List.Sublist (libraryFilter q tagFilter favOnly statusPick db) db := by
  have h1 : (if q ≠ "" then db.filter (textPred (pyStrip q)) else db)
      = db.filter (textPred (pyStrip q)) := by
    by_cases hq : q = ""
    · rw [if_neg (fun hne => hne hq)]
      symm
      apply List.filter_eq_self.mpr
      intro b _
      rw [hq]
      exact textPred_empty b
    · rw [if_pos hq]
  have h2 : ∀ X : List Book,
      (if pyStrip tagFilter ≠ "" then X.filter (tagsPred (parseLowerTags tagFilter)) else X)
        = X.filter (tagsPred (effWanted tagFilter)) := by
    intro X
    by_cases ht : pyStrip tagFilter = ""
    · rw [if_neg (fun hne => hne ht)]
      symm
      apply List.filter_eq_self.mpr
      intro b _
      show tagsPred (effWanted tagFilter) b = true
      unfold effWanted
      rw [if_neg (fun hne => hne ht)]
      rfl
    · rw [if_pos ht]
      apply List.filter_congr
      intro b _
      show tagsPred (parseLowerTags tagFilter) b = tagsPred (effWanted tagFilter) b
      unfold effWanted
      rw [if_pos ht]
  have h3 : ∀ X : List Book,
      (if favOnly then X.filter (fun b => b.favorite) else X)
        = X.filter (fun b => !favOnly || b.favorite) := by
    intro X
    cases favOnly with
    | false =>
      rw [if_neg (by simp)]
      symm
      apply List.filter_eq_self.mpr
      intro b _
      rfl
    | true =>
      rw [if_pos rfl]
      apply List.filter_congr
      intro b _
      rfl
  have h4 : ∀ X : List Book,
      (if statusPick ≠ "All" then X.filter (statusPred statusPick) else X)
        = X.filter (fun b =>
            match effStatus statusPick with
            | Option.none => true
            | some s => statusPred s b) := by
    intro X
    by_cases hs : statusPick = "All"
    · rw [if_neg (fun hne => hne hs)]
      symm
      apply List.filter_eq_self.mpr
      intro b _
      subst hs
      rfl
    · rw [if_pos hs]
      apply List.filter_congr
      intro b _
      show statusPred statusPick b
          = (match effStatus statusPick with
            | Option.none => true
            | some s => statusPred s b)
      unfold effStatus
      rw [if_pos hs]
  have heq : libraryFilter q tagFilter favOnly statusPick db
      = db.filter
        (specMatches (pyStrip q) (effWanted tagFilter) favOnly (effStatus statusPick)) := by
    show (if statusPick ≠ "All" then
            ((if favOnly then
                ((if pyStrip tagFilter ≠ "" then
                    ((if q ≠ "" then db.filter (textPred (pyStrip q)) else db).filter
                      (tagsPred (parseLowerTags tagFilter)))
                  else (if q ≠ "" then db.filter (textPred (pyStrip q)) else db))).filter
                  (fun b => b.favorite)
              else (if pyStrip tagFilter ≠ "" then
                    ((if q ≠ "" then db.filter (textPred (pyStrip q)) else db).filter
                      (tagsPred (parseLowerTags tagFilter)))
                  else (if q ≠ "" then db.filter (textPred (pyStrip q)) else db)))).filter
              (statusPred statusPick)
          else
            (if favOnly then
                ((if pyStrip tagFilter ≠ "" then
                    ((if q ≠ "" then db.filter (textPred (pyStrip q)) else db).filter
                      (tagsPred (parseLowerTags tagFilter)))
                  else (if q ≠ "" then db.filter (textPred (pyStrip q)) else db))).filter
                  (fun b => b.favorite)
              else (if pyStrip tagFilter ≠ "" then
                    ((if q ≠ "" then db.filter (textPred (pyStrip q)) else db).filter
                      (tagsPred (parseLowerTags tagFilter)))
                  else (if q ≠ "" then db.filter (textPred (pyStrip q)) else db))))
        = _
    rw [h1, h2 _, h3 _, h4 _]
    simp only [List.filter_filter]
    apply List.filter_congr
    intro b _
    show ((match effStatus statusPick with
            | Option.none => true
            | some s => statusPred s b)
          && ((!favOnly || b.favorite)
            && (tagsPred (effWanted tagFilter) b && textPred (pyStrip q) b)))
        = specMatches (pyStrip q) (effWanted tagFilter) favOnly (effStatus statusPick) b
    unfold specMatches
    cases textPred (pyStrip q) b <;> cases tagsPred (effWanted tagFilter) b
      <;> cases (!favOnly || b.favorite)
      <;> cases (match effStatus statusPick with
        | Option.none => true
        | some s => statusPred s b)
      <;> rfl
  refine ⟨heq, ?sub⟩
  rw [heq]
  exact List.filter_sublist db

example : pyStrip "  a b  " = "a b" := by decide
example : pyLower "AbC" = "abc" := by decide
example : normTags ["b", " a ", "b", ""] = ["a", "b"] := by decide
example : strLe "a" "b" := by decide
example : PyVal.toInt (PyVal.str " -42 ") = some (-42) := by decide
example : PyVal.toInt (PyVal.str "abc") = Option.none := by decide
example : (ensureDefaults "i" "t" { progress := some (PyVal.str "abc") }) = Option.none := by decide
example : (ensureDefaults "i" "t" { progress := some (PyVal.int 150) }).map Book.progress = some 100 := by decide
example : (ensureDefaults "i" "t" { updated_at := some "old" }).map Book.updated_at = some "old" := by decide

end StrangersLedger
